import Mathlib

/-!
Verification of the mixsync synchronization engine.

The repository contains two structurally similar implementations:
* `src/app/` (FastAPI variant) — modelled in namespace `APP`;
* `src/audio_fetcher/app/` (Gradio variant) — modelled in namespace `AF`.

External collaborators (the Spotify client and yt-dlp) are modelled as
oracle parameters: a per-track download outcome, a per-track removal
outcome, and a per-query download-attempt function.
-/

namespace MixSync

/-- A track snapshot as fetched from the remote playlist
(`extract_track_info` in `src/audio_fetcher/app/utils.py`). -/
structure Track where
  id : String
  artist : String
  title : String
  uri : String
deriving DecidableEq

/-- Registry state of the audio_fetcher watcher:
`processed_tracks` and `failed_tracks` in
`src/audio_fetcher/app/spotify_watcher.py`. -/
structure RegState where
  processed : Finset String
  failed : Finset String
deriving DecidableEq

/-- The spec's registry invariant: no id is in both sets. -/
def RegDisjoint (st : RegState) : Prop :=
  ∀ i, i ∈ st.processed → i ∉ st.failed

namespace AF

/-- `SpotifyWatcher.process_track` (src/audio_fetcher/app/spotify_watcher.py,
lines 165-209).  `dl` is the outcome of `downloader.search_and_download`
(true iff it returned a path), `rm` the outcome of
`remove_track_from_playlist`.  Returns the new registry state and the
boolean result of the method.  The two `dl = true` branches are kept
separate to mirror the source: on removal failure the id is *still*
marked processed (line 198).  The `except` path of the source also adds
the id to `failed`, the same state change as the download-failure branch. -/
def process_track (dl rm : Bool) (st : RegState) (t : Track) : RegState × Bool :=
  if dl then
    if rm then
      ({ st with processed := insert t.id st.processed }, true)
    else
      ({ st with processed := insert t.id st.processed }, true)
  else
    ({ st with failed := insert t.id st.failed }, false)

/-- The filter in `check_playlist_for_new_tracks` (lines 99-103):
tracks whose id is in neither registry set. -/
def new_tracks (st : RegState) (tracks : List Track) : List Track :=
  tracks.filter (fun t => t.id ∉ st.processed ∧ t.id ∉ st.failed)

/-- Sequential per-track processing loop (lines 112-116 and 266-268). -/
def process_list (dl rm : Track → Bool) (st : RegState) (ts : List Track) : RegState :=
  ts.foldl (fun s t => (process_track (dl t) (rm t) s t).1) st

/-- `check_playlist_for_new_tracks` (lines 82-121): filter out already
processed or failed tracks, process each remaining one.  The second
component is the list of track ids handed to
`downloader.search_and_download` (one call per new track, line 187). -/
def check_playlist_for_new_tracks (dl rm : Track → Bool) (st : RegState)
    (tracks : List Track) : RegState × List String :=
  let new := new_tracks st tracks
  (process_list dl rm st new, new.map Track.id)

/-- `retry_failed_tracks` (lines 239-268): keep the failed tracks still
present in the fetched playlist, discard their ids from `failed`, then
reprocess them.  The second component is the list of reprocessed ids. -/
def retry_failed_tracks (dl rm : Track → Bool) (st : RegState)
    (current : List Track) : RegState × List String :=
  let toRetry := current.filter (fun t => t.id ∈ st.failed)
  let st1 : RegState :=
    { st with failed := toRetry.foldl (fun f t => f.erase t.id) st.failed }
  (process_list dl rm st1 toRetry, toRetry.map Track.id)

/-- `cleanup_processed_tracks` (lines 314-330): wholesale clear of a set
once it exceeds its high-water mark. -/
def cleanup_processed_tracks (st : RegState) : RegState :=
  { processed := if 1000 < st.processed.card then ∅ else st.processed
    failed := if 100 < st.failed.card then ∅ else st.failed }

end AF

namespace APP

/-- `SpotifyWatcher.process_track` (src/app/spotify_watcher.py, lines
135-182).  This implementation keeps only a `processed_tracks` set.  On
download failure the id is added to `processed_tracks` ("Mark as
processed to avoid repeated attempts", line 177); on removal failure the
id is *not* recorded anywhere and the method returns False. -/
def process_track (dl rm : Bool) (processed : Finset String) (t : Track) :
    Finset String × Bool :=
  if dl then
    if rm then
      (insert t.id processed, true)
    else
      (processed, false)
  else
    (insert t.id processed, false)

/-- The filter in `get_new_tracks` (lines 88-104): only `processed_tracks`
is consulted. -/
def get_new_tracks (processed : Finset String) (tracks : List Track) : List Track :=
  tracks.filter (fun t => t.id ∉ processed)

/-- The statistics dictionary built by `sync_playlist`. -/
structure SyncStats where
  new_tracks : Nat
  downloaded : Nat
  failed : Nat
deriving DecidableEq

/-- `sync_playlist` (lines 184-219).  `clientInit` models
`self.spotify_client` being non-None.  Returns the stats, the final
`processed_tracks` set and the list of track ids handed to
`downloader.search_and_download` (one call per new track, line 161).
When the client is uninitialized the zero stats are returned before any
fetch, registry access or downloader call (lines 199-201). -/
def sync_playlist (clientInit : Bool) (dl rm : Track → Bool)
    (processed : Finset String) (tracks : List Track) :
    SyncStats × Finset String × List String :=
  if clientInit = false then
    (⟨0, 0, 0⟩, processed, [])
  else
    let new := get_new_tracks processed tracks
    let final := new.foldl
      (fun (acc : SyncStats × Finset String) t =>
        let r := process_track (dl t) (rm t) acc.2 t
        (if r.2 then
          { acc.1 with downloaded := acc.1.downloaded + 1 }
         else
          { acc.1 with failed := acc.1.failed + 1 }, r.1))
      (⟨new.length, 0, 0⟩, processed)
    (final.1, final.2, new.map Track.id)

/-- The four search variations of `AudioDownloader.search_and_download`
(src/app/downloader.py, lines 102-107). -/
def search_variations (q : String) : List String :=
  ["ytsearch1:" ++ q,
   "ytsearch1:" ++ q ++ " audio",
   "ytsearch1:" ++ q ++ " official",
   "ytsearch1:" ++ q ++ " music"]

/-- The per-variant loop of `search_and_download` (lines 109-172).
`attempt v` is the outcome of a whole variant attempt (info extraction,
audio-format check, download, file resolution): `some path` iff the
variant completed a download whose file was found; every miss or caught
exception yields `none` and moves to the next variant.  Returns the list
of variants actually tried and the overall result. -/
def try_variants (attempt : String → Option String) :
    List String → List String × Option String
  | [] => ([], none)
  | v :: vs =>
    match attempt v with
    | some f => ([v], some f)
    | none =>
      let r := try_variants attempt vs
      (v :: r.1, r.2)

/-- `AudioDownloader.search_and_download` (src/app/downloader.py,
lines 87-176): try the four variations in order, return on the first
success, report failure after all are exhausted. -/
def search_and_download (attempt : String → Option String) (q : String) :
    List String × Option String :=
  try_variants attempt (search_variations q)

/-- A directory entry as inspected by `_find_downloaded_file`
(`file_path.name`, `file_path.suffix`, `file_path.stat().st_mtime`,
`file_path.is_file()`). -/
structure FSFile where
  name : String
  suffix : String
  mtime : Int
  isFile : Bool
deriving DecidableEq

/-- The audio-extension allow-list (src/app/downloader.py, line 267). -/
def audio_extensions : List String :=
  [".mp3", ".m4a", ".wav", ".flac", ".ogg", ".webm", ".opus", ".aac"]

/-- The web/temporary-artifact denylist (line 268). -/
def web_formats : List String :=
  [".mhtml", ".html", ".htm", ".part", ".tmp", ".ytdl"]

/-- Python `max(files, key=lambda f: f.stat().st_mtime)`: the first
element whose mtime is maximal (later elements replace the current best
only when strictly greater). -/
def maxByMtime : List FSFile → Option FSFile
  | [] => none
  | x :: xs => some (xs.foldl (fun best f => if best.mtime < f.mtime then f else best) x)

set_option linter.unusedVariables false in
/-- `AudioDownloader._find_downloaded_file` (src/app/downloader.py, lines
249-306).  `files` is the snapshot of the output directory, `now` the
value of `time.time()`.  The `video_title` argument is only ever logged
by the source (lines 260, 264); selection is by extension lists and
modification time. -/
def find_downloaded_file (video_title : String) (files : List FSFile) (now : Int) :
    Option FSFile :=
  let audio_files := files.filter (fun f =>
    f.isFile ∧ f.suffix.toLower ∉ web_formats ∧ f.suffix.toLower ∈ audio_extensions)
  match maxByMtime audio_files with
  | some latest => some latest
  | none =>
    let recent_files := files.filter (fun f =>
      f.isFile ∧ f.suffix.toLower ∉ web_formats ∧ now - 60 < f.mtime)
    maxByMtime recent_files

end APP

namespace AF

/-- `AudioDownloader._search_and_download_sync`
(src/audio_fetcher/app/downloader.py, lines 89-140): a single
`ytsearch{max_results}:{query}` search is issued; there is no variant
cascade.  Returns the list of queries tried and the result. -/
def search_and_download (attempt : String → Option String) (q : String)
    (max_results : Nat) : List String × Option String :=
  let search_url := "ytsearch" ++ toString max_results ++ ":" ++ q
  ([search_url], attempt search_url)

end AF

/-!
A small backtracking regular-expression engine, sufficient for the exact
patterns used by `clean_track_title` (src/app/utils.py, lines 45-128).
Every star in those patterns is over a single-character atom, so the
engine only needs star-of-atom with greedy backtracking, which matches
Python's leftmost, greedy, backtracking `re` semantics on this fragment.
-/

/-- Whitespace as matched by Python's `\s` (unicode mode) and stripped by
`str.strip()`. -/
def isPySpace (c : Char) : Bool :=
  c = ' ' ∨ c = '\t' ∨ c = '\n' ∨ c = '\r' ∨ c = '\x0b' ∨ c = '\x0c' ∨
  c = '\x1c' ∨ c = '\x1d' ∨ c = '\x1e' ∨ c = '\x1f' ∨ c = '\x85' ∨ c = '\xa0' ∨
  c = '\u1680' ∨ ('\u2000' ≤ c ∧ c ≤ '\u200a') ∨ c = '\u2028' ∨ c = '\u2029' ∨
  c = '\u202f' ∨ c = '\u205f' ∨ c = '\u3000'

/-- Python `str.strip()`: drop leading and trailing whitespace. -/
def pyStrip (s : List Char) : List Char :=
  ((s.dropWhile isPySpace).reverse.dropWhile isPySpace).reverse

/-- Single-character regex atoms. -/
inductive Atom where
  /-- an exact character -/
  | lit (c : Char)
  /-- a character matched case-insensitively (the `re.IGNORECASE` flag) -/
  | litCI (c : Char)
  /-- `.` — any character except a newline -/
  | anyNotNL
  /-- `\s` -/
  | space
deriving DecidableEq

def atomTest : Atom → Char → Bool
  | .lit c, x => x = c
  | .litCI c, x => x.toLower = c.toLower
  | .anyNotNL, x => x ≠ '\n'
  | .space, x => isPySpace x

/-- One term of a regex: an atom, a greedy star over an atom, or the `$`
end anchor (which in Python also matches just before a final newline). -/
inductive RTerm where
  | one (a : Atom)
  | star (a : Atom)
  | endAnchor
deriving DecidableEq

/-- Length of the maximal run of leading characters matching `a`. -/
def takeRun (a : Atom) : List Char → Nat
  | [] => 0
  | c :: cs => if atomTest a c then takeRun a cs + 1 else 0

/-- Greedy backtracking for `a*`: try consuming `k` characters, then
`k - 1`, ... down to `0`, handing the rest to the continuation. -/
def starTry (next : List Char → Option (List Char)) (s : List Char) :
    Nat → Option (List Char)
  | 0 => next s
  | k + 1 =>
    match next (s.drop (k + 1)) with
    | some r => some r
    | none => starTry next s k

/-- Match a term sequence against a prefix of `s`, returning the
remaining suffix of the leftmost-first (Python `re`) match. -/
def matchTerms : List RTerm → List Char → Option (List Char)
  | [], s => some s
  | .one _ :: _, [] => none
  | .one a :: ts, c :: cs => if atomTest a c then matchTerms ts cs else none
  | .star a :: ts, s => starTry (matchTerms ts) s (takeRun a s)
  | .endAnchor :: ts, s => if s = [] ∨ s = ['\n'] then matchTerms ts s else none

/-- A pattern is an ordered list of alternatives; each alternative may be
anchored at the string start (`^`). -/
def Pat : Type := List (Bool × List RTerm)

/-- Try the alternatives in order at the current position.  An anchored
alternative only applies at position 0 (`atStart`). -/
def matchPat (p : Pat) (s : List Char) (atStart : Bool) : Option (List Char) :=
  p.findSome? (fun alt => if alt.1 ∧ ¬ atStart then none else matchTerms alt.2 s)

/-- Scanning loop of Python `re.sub`: at each position try the pattern;
on a match emit the replacement and resume after the match, otherwise
advance one character.  `fuel` (initially the string length) bounds the
recursion; none of the patterns used here can match the empty string, so
the equal-length guard branch is never taken for them. -/
def subGo (p : Pat) (repl : List Char) : Nat → List Char → Bool → List Char
  | 0, s, _ => s
  | fuel + 1, s, atStart =>
    match matchPat p s atStart with
    | some rest =>
      if rest.length < s.length then
        repl ++ subGo p repl fuel rest false
      else
        match s with
        | [] => []
        | c :: cs => c :: subGo p repl fuel cs false
    | none =>
      match s with
      | [] => []
      | c :: cs => c :: subGo p repl fuel cs false

/-- Python `re.sub(pattern, repl, s)` on this pattern fragment. -/
def pySub (p : Pat) (repl : String) (s : List Char) : List Char :=
  subGo p repl.toList s.length s true

/-- A case-insensitive literal, character by character. -/
def litsCI (s : String) : List RTerm :=
  s.toList.map (fun c => .one (.litCI c))

/-- A broad bracketed pattern such as
`\[.*Official.*Video.*\]`: opening bracket, then `.*` before each listed
word and after the last one, then the closing bracket. -/
def bracketAround (opn cls : Char) (words : List String) : List RTerm :=
  .one (.lit opn) ::
    words.foldr (fun w acc => .star .anyNotNL :: (litsCI w ++ acc))
      [.star .anyNotNL, .one (.lit cls)]

/-- The ordered pattern catalog `patterns_to_remove` of
`clean_track_title` (src/app/utils.py, lines 60-111), broad patterns
first, then specific ones, then prefixes and dash trimming; all applied
with `re.IGNORECASE`. -/
def patterns_to_remove : List Pat :=
  [ [(false, bracketAround '[' ']' ["Official", "Music", "Video"])],
    [(false, bracketAround '[' ']' ["Official", "Video"])],
    [(false, bracketAround '[' ']' ["Music", "Video"])],
    [(false, bracketAround '[' ']' ["Official", "Audio"])],
    [(false, bracketAround '(' ')' ["Official", "Music", "Video"])],
    [(false, bracketAround '(' ')' ["Official", "Video"])],
    [(false, bracketAround '(' ')' ["Music", "Video"])],
    [(false, bracketAround '(' ')' ["Official", "Audio"])],
    [(false, litsCI "[Official Music Video]")],
    [(false, litsCI "[Official Video]")],
    [(false, litsCI "[Music Video]")],
    [(false, litsCI "[Official Audio]")],
    [(false, litsCI "[Audio]")],
    [(false, litsCI "[Official]")],
    [(false, litsCI "[HD]")],
    [(false, litsCI "[4K]")],
    [(false, litsCI "[Lyric Video]")],
    [(false, litsCI "[Lyrics]")],
    [(false, litsCI "[Visualizer]")],
    [(false, litsCI "[Live]")],
    [(false, litsCI "[Acoustic]")],
    [(false, litsCI "[Remix]")],
    [(false, litsCI "[Extended Mix]")],
    [(false, litsCI "[Radio Edit]")],
    [(false, litsCI "(Official Music Video)")],
    [(false, litsCI "(Official Video)")],
    [(false, litsCI "(Music Video)")],
    [(false, litsCI "(Official Audio)")],
    [(false, litsCI "(Audio)")],
    [(false, litsCI "(Official)")],
    [(false, litsCI "(HD)")],
    [(false, litsCI "(4K)")],
    [(false, litsCI "(Lyric Video)")],
    [(false, litsCI "(Lyrics)")],
    [(false, litsCI "(Visualizer)")],
    [(false, litsCI "(Live)")],
    [(false, litsCI "(Acoustic)")],
    [(false, litsCI "(Remix)")],
    [(false, litsCI "(Extended Mix)")],
    [(false, litsCI "(Radio Edit)")],
    [(true, litsCI "Official" ++ [.star .space, .one (.lit '-'), .star .space])],
    [(true, litsCI "Official" ++ [.one (.lit ':'), .star .space])],
    [(false, [.star .space, .one (.lit '-'), .star .space, .endAnchor])],
    [(true, [.star .space, .one (.lit '-'), .star .space])] ]

/-- `\s+` (line 118). -/
def wsPlus : Pat := [(false, [.one .space, .star .space])]

/-- `\s*-\s*-\s*` (line 121). -/
def multiDash : Pat :=
  [(false, [.star .space, .one (.lit '-'), .star .space, .one (.lit '-'), .star .space])]

/-- `^-\s*|\s*-$` (line 122). -/
def leadTrailDash : Pat :=
  [(true, [.one (.lit '-'), .star .space]),
   (false, [.star .space, .one (.lit '-'), .endAnchor])]

/-- Lines 113-122 of `clean_track_title`: the pattern-removal loop, the
whitespace collapse with strip, the dash merging and the leading/trailing
dash removal. -/
def cleanCore (s : List Char) : List Char :=
  pySub leadTrailDash ""
    (pySub multiDash " - "
      (pyStrip
        (pySub wsPlus " "
          (patterns_to_remove.foldl (fun acc p => pySub p "" acc) s))))

/-- `clean_track_title` (src/app/utils.py, lines 45-128).  An empty title
returns the fixed fallback; otherwise the cleaning pipeline runs, and if
its result is empty or its stripped length is below 3, the original
title is used instead; the returned value is stripped (line 128). -/
def clean_track_title (title : String) : String :=
  if title = "" then "Unknown Track"
  else if (cleanCore title.toList).isEmpty ∨ (pyStrip (cleanCore title.toList)).length < 3 then
    String.mk (pyStrip title.toList)
  else
    String.mk (pyStrip (cleanCore title.toList))

/-! ### Helper lemmas -/

lemma length_mk (l : List Char) : (String.mk l).length = l.length := rfl

lemma try_variants_all_none (a : String → Option String) :
    ∀ vs : List String, (∀ v ∈ vs, a v = none) →
      APP.try_variants a vs = (vs, none) := by
  intro vs
  induction vs with
  | nil => intro _; rfl
  | cons v vs ih =>
    intro h
    have hv : a v = none := h v (List.mem_cons_self v vs)
    have ihe := ih (fun u hu => h u (List.mem_cons_of_mem v hu))
    simp [APP.try_variants, hv, ihe]

lemma try_variants_none_all (a : String → Option String) :
    ∀ vs : List String, (APP.try_variants a vs).2 = none →
      ∀ v ∈ vs, a v = none := by
  intro vs
  induction vs with
  | nil => intro _ v hv; cases hv
  | cons v vs ih =>
    intro h u hu
    cases hv : a v with
    | some f => simp [APP.try_variants, hv] at h
    | none =>
      rcases List.mem_cons.mp hu with rfl | hu'
      · exact hv
      · apply ih _ u hu'
        simpa [APP.try_variants, hv] using h

lemma try_variants_first_success (a : String → Option String) :
    ∀ (vs : List String) (f : String), (APP.try_variants a vs).2 = some f →
      ∃ k, ∃ hk : k < vs.length,
        a (vs.get ⟨k, hk⟩) = some f ∧
        (∀ j, ∀ hj : j < vs.length, j < k → a (vs.get ⟨j, hj⟩) = none) ∧
        (APP.try_variants a vs).1 = vs.take (k + 1) := by
  intro vs
  induction vs with
  | nil => intro f h; simp [APP.try_variants] at h
  | cons v vs ih =>
    intro f h
    cases hv : a v with
    | some g =>
      have hg : g = f := by simpa [APP.try_variants, hv] using h
      subst hg
      exact ⟨0, Nat.succ_pos _, hv, fun j hj hlt => absurd hlt (Nat.not_lt_zero j),
        by simp [APP.try_variants, hv]⟩
    | none =>
      have h' : (APP.try_variants a vs).2 = some f := by
        simpa [APP.try_variants, hv] using h
      rcases ih f h' with ⟨k, hk, hsucc, hbefore, htried⟩
      refine ⟨k + 1, Nat.succ_lt_succ hk, hsucc, ?_, ?_⟩
      · intro j hj hlt
        cases j with
        | zero => exact hv
        | succ j' => exact hbefore j' (Nat.lt_of_succ_lt_succ hj) (Nat.lt_of_succ_lt_succ hlt)
      · simp [APP.try_variants, hv, htried]

lemma count_map_filter_zero (p : Track → Bool) (l : List Track) (i : String)
    (h : i ∉ l.map Track.id) : ((l.filter p).map Track.id).count i = 0 := by
  rw [List.count_eq_zero]
  intro hmem
  rcases List.mem_map.mp hmem with ⟨u, hu, rfl⟩
  exact h (List.mem_map.mpr ⟨u, (List.mem_filter.mp hu).1, rfl⟩)

lemma count_filter_map_id (p : Track → Bool) :
    ∀ (l : List Track) (t : Track), (l.map Track.id).Nodup → t ∈ l →
      ((l.filter p).map Track.id).count t.id = if p t then 1 else 0 := by
  intro l
  induction l with
  | nil => intro t _ ht; cases ht
  | cons x xs ih =>
    intro t hnd ht
    rw [List.map_cons, List.nodup_cons] at hnd
    obtain ⟨hx, hnd'⟩ := hnd
    rcases List.mem_cons.mp ht with rfl | htxs
    · have h0 := count_map_filter_zero p xs t.id hx
      by_cases hp : p t
      · simp only [List.filter_cons, hp, if_true, List.map_cons, List.count_cons]
        rw [h0]
        simp
      · simp [List.filter_cons, hp, h0]
    · have hne : t.id ≠ x.id := by
        intro h
        exact hx (h ▸ List.mem_map.mpr ⟨t, htxs, rfl⟩)
      by_cases hp : p x
      · simp only [List.filter_cons, hp, if_true, List.map_cons, List.count_cons]
        rw [ih t hnd' htxs]
        simp [hne, Ne.symm hne]
      · simp only [List.filter_cons, hp, if_false]
        exact ih t hnd' htxs

lemma mem_foldl_erase :
    ∀ (ts : List Track) (F : Finset String) (i : String),
      (i ∈ ts.foldl (fun f t => f.erase t.id) F) ↔ (i ∈ F ∧ i ∉ ts.map Track.id) := by
  intro ts
  induction ts with
  | nil => intro F i; simp
  | cons x xs ih =>
    intro F i
    rw [List.foldl_cons, ih]
    simp only [Finset.mem_erase, List.map_cons, List.mem_cons]
    tauto

lemma nodup_filter_map_id (p : Track → Bool) (l : List Track)
    (h : (l.map Track.id).Nodup) : ((l.filter p).map Track.id).Nodup := by
  have hs : (l.filter p).Sublist l := List.filter_sublist l
  exact h.sublist (hs.map Track.id)

lemma process_list_spec (dl rm : Track → Bool) :
    ∀ (ts : List Track) (st : RegState),
      RegDisjoint st → (ts.map Track.id).Nodup →
      (∀ t ∈ ts, t.id ∉ st.processed ∧ t.id ∉ st.failed) →
      RegDisjoint (AF.process_list dl rm st ts) ∧
      (∀ t ∈ ts,
        (t.id ∈ (AF.process_list dl rm st ts).processed ∧
         t.id ∉ (AF.process_list dl rm st ts).failed) ∨
        (t.id ∉ (AF.process_list dl rm st ts).processed ∧
         t.id ∈ (AF.process_list dl rm st ts).failed)) ∧
      (∀ i, i ∉ ts.map Track.id →
        ((i ∈ (AF.process_list dl rm st ts).processed ↔ i ∈ st.processed) ∧
         (i ∈ (AF.process_list dl rm st ts).failed ↔ i ∈ st.failed))) := by
  intro ts
  induction ts with
  | nil =>
    intro st hdisj _ _
    exact ⟨hdisj, fun t ht => absurd ht (List.not_mem_nil t), fun i _ => ⟨Iff.rfl, Iff.rfl⟩⟩
  | cons x xs ih =>
    intro st hdisj hnd hpend
    rw [List.map_cons, List.nodup_cons] at hnd
    obtain ⟨hx, hnd'⟩ := hnd
    obtain ⟨hxp, hxf⟩ := hpend x (List.mem_cons_self x xs)
    have hfold : AF.process_list dl rm st (x :: xs) =
        AF.process_list dl rm (AF.process_track (dl x) (rm x) st x).1 xs := rfl
    set st' := (AF.process_track (dl x) (rm x) st x).1 with hstdef
    have hst' : (st'.processed = insert x.id st.processed ∧ st'.failed = st.failed) ∨
        (st'.processed = st.processed ∧ st'.failed = insert x.id st.failed) := by
      rcases Bool.eq_false_or_eq_true (dl x) with hdl | hdl
      · left
        simp [hstdef, AF.process_track, hdl]
      · right
        simp [hstdef, AF.process_track, hdl]
    have hdisj' : RegDisjoint st' := by
      rcases hst' with ⟨h1, h2⟩ | ⟨h1, h2⟩
      · intro i hi hf
        rw [h1, Finset.mem_insert] at hi
        rw [h2] at hf
        rcases hi with rfl | hi
        · exact hxf hf
        · exact hdisj i hi hf
      · intro i hi hf
        rw [h1] at hi
        rw [h2, Finset.mem_insert] at hf
        rcases hf with hf | hf
        · exact hxp (hf ▸ hi)
        · exact hdisj i hi hf
    have hpend' : ∀ t ∈ xs, t.id ∉ st'.processed ∧ t.id ∉ st'.failed := by
      intro t htm
      obtain ⟨htp, htf⟩ := hpend t (List.mem_cons_of_mem x htm)
      have hne : t.id ≠ x.id := by
        intro h
        exact hx (h ▸ List.mem_map.mpr ⟨t, htm, rfl⟩)
      rcases hst' with ⟨h1, h2⟩ | ⟨h1, h2⟩
      · constructor
        · rw [h1, Finset.mem_insert]
          rintro (h | h)
          · exact hne h
          · exact htp h
        · rw [h2]; exact htf
      · constructor
        · rw [h1]; exact htp
        · rw [h2, Finset.mem_insert]
          rintro (h | h)
          · exact hne h
          · exact htf h
    have hxone : (x.id ∈ st'.processed ∧ x.id ∉ st'.failed) ∨
        (x.id ∉ st'.processed ∧ x.id ∈ st'.failed) := by
      rcases hst' with ⟨h1, h2⟩ | ⟨h1, h2⟩
      · left
        constructor
        · rw [h1]; exact Finset.mem_insert_self x.id st.processed
        · rw [h2]; exact hxf
      · right
        constructor
        · rw [h1]; exact hxp
        · rw [h2]; exact Finset.mem_insert_self x.id st.failed
    obtain ⟨ihd, ihmem, ihframe⟩ := ih st' hdisj' hnd' hpend'
    rw [hfold]
    refine ⟨ihd, ?_, ?_⟩
    · intro t htm
      rcases List.mem_cons.mp htm with rfl | htm'
      · obtain ⟨hfr1, hfr2⟩ := ihframe t.id hx
        rcases hxone with ⟨h1, h2⟩ | ⟨h1, h2⟩
        · exact Or.inl ⟨hfr1.mpr h1, fun h => h2 (hfr2.mp h)⟩
        · exact Or.inr ⟨fun h => h1 (hfr1.mp h), hfr2.mpr h2⟩
      · exact ihmem t htm'
    · intro i hi
      rw [List.map_cons, List.mem_cons] at hi
      push_neg at hi
      obtain ⟨hne, hi'⟩ := hi
      obtain ⟨hfr1, hfr2⟩ := ihframe i hi'
      have hstep : (i ∈ st'.processed ↔ i ∈ st.processed) ∧
          (i ∈ st'.failed ↔ i ∈ st.failed) := by
        rcases hst' with ⟨h1, h2⟩ | ⟨h1, h2⟩
        · rw [h1, h2, Finset.mem_insert]
          exact ⟨⟨fun h => h.resolve_left hne, Or.inr⟩, Iff.rfl⟩
        · rw [h1, h2, Finset.mem_insert]
          exact ⟨Iff.rfl, ⟨fun h => h.resolve_left hne, Or.inr⟩⟩
      exact ⟨hfr1.trans hstep.1, hfr2.trans hstep.2⟩

/-! ### Claim theorems -/

/-- Claim C1, counterexample.  The claim states that a track whose
download fails has its id added to the `failed` set and not to the
`processed` set.  In the `src/app` implementation the opposite happens:
`process_track` with a failed download adds the id to `processed_tracks`
(src/app/spotify_watcher.py, line 177), and that implementation has no
failed set at all. -/
theorem download_failure_marks_processed_in_app :
    (APP.process_track false true ∅ ⟨"t1", "a", "s", "u"⟩).1 = {"t1"} ∧
    (APP.process_track false true ∅ ⟨"t1", "a", "s", "u"⟩).2 = false := by
  decide

/-- Claim C1, amended.  In the audio_fetcher implementation a failed
download (or failed file resolution) adds the id to `failed`, leaves
`processed` unchanged, returns False, and the track is excluded from the
next poll's new-track list.  In the app implementation, which keeps only
a `processed` set, a failed download adds the id to `processed` (so it
is likewise not retried) and returns False, which the sync statistics
count as failed. -/
theorem download_failure_registry_update (st : RegState) (p : Finset String)
    (t : Track) (rm : Bool) (tracks : List Track) :
    ((AF.process_track false rm st t).1.failed = insert t.id st.failed ∧
     (AF.process_track false rm st t).1.processed = st.processed ∧
     (AF.process_track false rm st t).2 = false ∧
     (∀ u ∈ AF.new_tracks (AF.process_track false rm st t).1 tracks, u.id ≠ t.id)) ∧
    ((APP.process_track false rm p t).1 = insert t.id p ∧
     (APP.process_track false rm p t).2 = false) := by
  refine ⟨⟨rfl, rfl, rfl, ?_⟩, rfl, rfl⟩
  intro u hu
  rw [AF.new_tracks, List.mem_filter] at hu
  have hnf := (of_decide_eq_true hu.2).2
  intro he
  apply hnf
  rw [he]
  show t.id ∈ (AF.process_track false rm st t).1.failed
  exact Finset.mem_insert_self t.id st.failed

/-- Claim C2, counterexample.  The claim states that a track whose
download succeeds but whose removal from the playlist fails is still
added to `processed`.  In the `src/app` implementation it is not:
`process_track` returns False without touching `processed_tracks`
(src/app/spotify_watcher.py, lines 171-173), so the track is retried on
the next poll. -/
theorem removal_failure_unmarked_in_app :
    (APP.process_track true false ∅ ⟨"t1", "a", "s", "u"⟩).1 = ∅ ∧
    (APP.process_track true false ∅ ⟨"t1", "a", "s", "u"⟩).2 = false := by
  decide

/-- Claim C2, amended.  In the audio_fetcher implementation a track
whose download succeeds but whose removal fails is still marked
processed ("Still mark as processed",
src/audio_fetcher/app/spotify_watcher.py line 198), the method returns
True, and the track is skipped by later fetch filters.  In the app
implementation the removal failure leaves `processed_tracks` unchanged
and the method returns False, counting the track as failed. -/
theorem removal_failure_registry_update (st : RegState) (p : Finset String)
    (t : Track) (tracks : List Track) :
    ((AF.process_track true false st t).1.processed = insert t.id st.processed ∧
     (AF.process_track true false st t).1.failed = st.failed ∧
     (AF.process_track true false st t).2 = true ∧
     (∀ u ∈ AF.new_tracks (AF.process_track true false st t).1 tracks, u.id ≠ t.id)) ∧
    ((APP.process_track true false p t).1 = p ∧
     (APP.process_track true false p t).2 = false) := by
  refine ⟨⟨rfl, rfl, rfl, ?_⟩, rfl, rfl⟩
  intro u hu
  rw [AF.new_tracks, List.mem_filter] at hu
  have hnp := (of_decide_eq_true hu.2).1
  intro he
  apply hnp
  rw [he]
  show t.id ∈ (AF.process_track true false st t).1.processed
  exact Finset.mem_insert_self t.id st.processed

/-- Claim C6, counterexample.  The input `"ab "` has length 3, yet
`clean_track_title` returns `"ab"` of length 2: the final `.strip()`
(src/app/utils.py, line 128) is applied after the fallback to the
original title, so trailing whitespace is removed below the threshold. -/
theorem clean_track_title_length_counterexample :
    ("ab " : String).length = 3 ∧ (clean_track_title "ab ").length = 2 := by
  decide

/-- Claim C6, amended.  For every input whose *stripped* length is at
least 3, `clean_track_title` returns a string of length at least 3: if
the pattern stripping leaves fewer than 3 characters, the cleaning is
discarded and the stripped original title is returned.  (The unamended
claim fails only because the returned value is always stripped, so an
input of length 3 with surrounding whitespace can come back shorter.) -/
theorem clean_track_title_min_length (title : String)
    (h : 3 ≤ (pyStrip title.toList).length) :
    3 ≤ (clean_track_title title).length := by
  unfold clean_track_title
  by_cases h0 : title = ""
  · subst h0
    have : (pyStrip ("" : String).toList).length = 0 := rfl
    omega
  · rw [if_neg h0]
    by_cases hg : (cleanCore title.toList).isEmpty ∨
        (pyStrip (cleanCore title.toList)).length < 3
    · rw [if_pos hg, length_mk]
      exact h
    · rw [if_neg hg, length_mk]
      push_neg at hg
      omega

/-- Claim C6 witness. -/
theorem clean_track_title_min_length_witness :
    3 ≤ (pyStrip ("hello" : String).toList).length ∧
    3 ≤ (clean_track_title "hello").length :=
  ⟨by decide, clean_track_title_min_length "hello" (by decide)⟩

/-- Claim C7, counterexample.  `clean_track_title` is not idempotent:
on `" Official - abc"` the first pass strips only the surrounding
whitespace (the leading space prevents the anchored `Official -` prefix
pattern from matching), while the second pass then also strips the
`Official - ` prefix, giving a different result. -/
theorem clean_track_title_not_idempotent :
    clean_track_title (clean_track_title " Official - abc") ≠
      clean_track_title " Official - abc" := by
  decide

/-- Claim C7, amended.  `clean_track_title` is idempotent only on its
fixed points: whenever one application leaves the title unchanged, a
second application yields the same result.  In general a second
application can strip further, because the whitespace normalization of
the first pass can expose anchored prefix patterns or (for titles with
internal newlines) bracketed patterns to the second pass. -/
theorem clean_track_title_idempotent_on_fixed_points (title : String)
    (h : clean_track_title title = title) :
    clean_track_title (clean_track_title title) = clean_track_title title := by
  rw [h]
  exact h

/-- Claim C7 witness. -/
theorem clean_track_title_idempotent_on_fixed_points_witness :
    clean_track_title "abc" = "abc" ∧
    clean_track_title (clean_track_title "abc") = clean_track_title "abc" :=
  ⟨by decide, clean_track_title_idempotent_on_fixed_points "abc" (by decide)⟩

/-- Claim C3: within one sync, each fetched track whose id is pending
(in neither registry set) is handed to the downloader exactly once, and
each fetched track whose id is in either set is handed to it zero times.
The audio_fetcher conjunct consults both sets; the app implementation
has no failed set, and its conjunct consults `processed_tracks` alone. -/
theorem sync_once_download_attempts (st : RegState) (p : Finset String)
    (dl rm : Track → Bool) (tracks : List Track)
    (hnd : (tracks.map Track.id).Nodup) (t : Track) (ht : t ∈ tracks) :
    ((AF.check_playlist_for_new_tracks dl rm st tracks).2.count t.id =
      if t.id ∈ st.processed ∨ t.id ∈ st.failed then 0 else 1) ∧
    ((APP.sync_playlist true dl rm p tracks).2.2.count t.id =
      if t.id ∈ p then 0 else 1) := by
  constructor
  · have hh := count_filter_map_id
      (fun u => decide (u.id ∉ st.processed ∧ u.id ∉ st.failed)) tracks t hnd ht
    have h2 : (AF.check_playlist_for_new_tracks dl rm st tracks).2 =
        (tracks.filter
          (fun u => decide (u.id ∉ st.processed ∧ u.id ∉ st.failed))).map Track.id := rfl
    rw [h2, hh]
    by_cases hm1 : t.id ∈ st.processed
    · simp [hm1]
    · by_cases hm2 : t.id ∈ st.failed
      · simp [hm1, hm2]
      · simp [hm1, hm2]
  · have hh := count_filter_map_id (fun u => decide (u.id ∉ p)) tracks t hnd ht
    have h2 : (APP.sync_playlist true dl rm p tracks).2.2 =
        (tracks.filter (fun u => decide (u.id ∉ p))).map Track.id := rfl
    rw [h2, hh]
    by_cases hm : t.id ∈ p
    · simp [hm]
    · simp [hm]

/-- Claim C3 witness. -/
theorem sync_once_download_attempts_witness :
    (([⟨"a", "x", "y", "u"⟩, ⟨"b", "x", "y", "v"⟩] : List Track).map Track.id).Nodup ∧
    (⟨"a", "x", "y", "u"⟩ : Track) ∈
      ([⟨"a", "x", "y", "u"⟩, ⟨"b", "x", "y", "v"⟩] : List Track) ∧
    (((AF.check_playlist_for_new_tracks (fun _ => true) (fun _ => true) ⟨{"b"}, ∅⟩
        [⟨"a", "x", "y", "u"⟩, ⟨"b", "x", "y", "v"⟩]).2.count "a" =
      if ("a" : String) ∈ ({"b"} : Finset String) ∨ ("a" : String) ∈ (∅ : Finset String)
      then 0 else 1) ∧
     ((APP.sync_playlist true (fun _ => true) (fun _ => true) {"b"}
        [⟨"a", "x", "y", "u"⟩, ⟨"b", "x", "y", "v"⟩]).2.2.count "a" =
      if ("a" : String) ∈ ({"b"} : Finset String) then 0 else 1)) :=
  ⟨by decide, by decide,
    sync_once_download_attempts ⟨{"b"}, ∅⟩ {"b"} (fun _ => true) (fun _ => true)
      [⟨"a", "x", "y", "u"⟩, ⟨"b", "x", "y", "v"⟩] (by decide)
      ⟨"a", "x", "y", "u"⟩ (by decide)⟩

/-- Claim C4, counterexample.  The claim asserts the four-variant
cascade for the download pipeline, but the audio_fetcher pipeline
(`_search_and_download_sync`) issues a single plain search query: with
an oracle that only succeeds on the "audio" variant, it tries exactly
one query (not the four variants) and fails, while the four-variant
cascade would have succeeded. -/
def c4Oracle : String → Option String := fun s =>
  if s = "ytsearch1:q audio" then some "f.mp3" else none

/-- Claim C4, counterexample (see `c4Oracle`). -/
theorem af_pipeline_single_query_counterexample :
    AF.search_and_download c4Oracle "q" 1 = (["ytsearch1:q"], none) ∧
    (["ytsearch1:q"] : List String) ≠ APP.search_variations "q" ∧
    (APP.search_and_download c4Oracle "q").2 = some "f.mp3" := by
  refine ⟨?_, ?_, ?_⟩ <;> decide

/-- Claim C4, amended.  The `src/app` pipeline tries exactly the four
query variants (plain, "audio", "official", "music") in that order:
if every variant fails it has tried all four and reports failure; it
reports failure only when every variant failed; and on success it
returns the first succeeding variant's download having tried exactly the
variants up to it.  The audio_fetcher pipeline instead issues a single
plain `ytsearch1:` query with no variant cascade. -/
theorem variant_cascade (a : String → Option String) (q : String) :
    (APP.search_variations q).length = 4 ∧
    ((∀ v ∈ APP.search_variations q, a v = none) →
      APP.search_and_download a q = (APP.search_variations q, none)) ∧
    ((APP.search_and_download a q).2 = none →
      ∀ v ∈ APP.search_variations q, a v = none) ∧
    (∀ f : String, (APP.search_and_download a q).2 = some f →
      ∃ k, ∃ hk : k < (APP.search_variations q).length,
        a ((APP.search_variations q).get ⟨k, hk⟩) = some f ∧
        (∀ j, ∀ hj : j < (APP.search_variations q).length, j < k →
          a ((APP.search_variations q).get ⟨j, hj⟩) = none) ∧
        (APP.search_and_download a q).1 = (APP.search_variations q).take (k + 1)) ∧
    AF.search_and_download a q 1 = (["ytsearch1:" ++ q], a ("ytsearch1:" ++ q)) := by
  refine ⟨rfl, ?_, ?_, ?_, ?_⟩
  · intro h
    exact try_variants_all_none a _ h
  · intro h
    exact try_variants_none_all a _ h
  · intro f h
    exact try_variants_first_success a _ f h
  · have he : ("ytsearch" ++ toString (1 : Nat) ++ ":") = "ytsearch1:" := by decide
    show (["ytsearch" ++ toString (1 : Nat) ++ ":" ++ q],
      a ("ytsearch" ++ toString (1 : Nat) ++ ":" ++ q)) = _
    rw [he]

/-- Claim C4 witness. -/
theorem variant_cascade_witness :
    (∀ v ∈ APP.search_variations "q", (fun _ : String => (none : Option String)) v = none) ∧
    APP.search_and_download (fun _ : String => (none : Option String)) "q" =
      (APP.search_variations "q", none) :=
  ⟨fun _ _ => rfl, (variant_cascade (fun _ => none) "q").2.1 (fun _ _ => rfl)⟩

lemma process_track_disjoint (b1 b2 : Bool) (st : RegState) (t : Track)
    (hdisj : RegDisjoint st) (hp : t.id ∉ st.processed) (hf : t.id ∉ st.failed) :
    RegDisjoint (AF.process_track b1 b2 st t).1 := by
  have hone : ((AF.process_track b1 b2 st t).1.processed = insert t.id st.processed ∧
      (AF.process_track b1 b2 st t).1.failed = st.failed) ∨
      ((AF.process_track b1 b2 st t).1.processed = st.processed ∧
      (AF.process_track b1 b2 st t).1.failed = insert t.id st.failed) := by
    rcases Bool.eq_false_or_eq_true b1 with hb | hb
    · left
      simp [AF.process_track, hb]
    · right
      simp [AF.process_track, hb]
  rcases hone with ⟨h1, h2⟩ | ⟨h1, h2⟩
  · intro i hi hf2
    rw [h1, Finset.mem_insert] at hi
    rw [h2] at hf2
    rcases hi with rfl | hi
    · exact hf hf2
    · exact hdisj i hi hf2
  · intro i hi hf2
    rw [h1] at hi
    rw [h2, Finset.mem_insert] at hf2
    rcases hf2 with hf2 | hf2
    · exact hp (hf2 ▸ hi)
    · exact hdisj i hi hf2

/-- Claim C5: starting from a disjoint registry, every operation keeps
`processed` and `failed` disjoint — `process_track` on a pending track
(markProcessed/markFailed), a whole `check_playlist_for_new_tracks`
sync, the eviction `cleanup_processed_tracks`, and
`retry_failed_tracks`.  Moreover `retry_failed_tracks` never reprocesses
an id currently in `processed`, and each id it reprocessed ends in
exactly one of the two sets.  Fetched playlists are assumed to carry
distinct track ids, as the spec's data model states. -/
theorem registry_disjointness_invariant (st : RegState) (hdisj : RegDisjoint st)
    (t : Track) (b1 b2 : Bool) (dl rm : Track → Bool)
    (tracks current : List Track)
    (hnd1 : (tracks.map Track.id).Nodup) (hnd2 : (current.map Track.id).Nodup)
    (hp : t.id ∉ st.processed) (hf : t.id ∉ st.failed) :
    RegDisjoint (AF.process_track b1 b2 st t).1 ∧
    RegDisjoint (AF.check_playlist_for_new_tracks dl rm st tracks).1 ∧
    RegDisjoint (AF.cleanup_processed_tracks st) ∧
    RegDisjoint (AF.retry_failed_tracks dl rm st current).1 ∧
    (∀ i ∈ (AF.retry_failed_tracks dl rm st current).2, i ∉ st.processed) ∧
    (∀ i ∈ (AF.retry_failed_tracks dl rm st current).2,
      (i ∈ (AF.retry_failed_tracks dl rm st current).1.processed ∧
       i ∉ (AF.retry_failed_tracks dl rm st current).1.failed) ∨
      (i ∉ (AF.retry_failed_tracks dl rm st current).1.processed ∧
       i ∈ (AF.retry_failed_tracks dl rm st current).1.failed)) := by
  refine ⟨process_track_disjoint b1 b2 st t hdisj hp hf, ?_, ?_, ?_⟩
  · have hnodup := nodup_filter_map_id
      (fun u => decide (u.id ∉ st.processed ∧ u.id ∉ st.failed)) tracks hnd1
    have hpend : ∀ u ∈ AF.new_tracks st tracks,
        u.id ∉ st.processed ∧ u.id ∉ st.failed := by
      intro u hu
      rw [AF.new_tracks, List.mem_filter] at hu
      exact of_decide_eq_true hu.2
    exact (process_list_spec dl rm (AF.new_tracks st tracks) st hdisj hnodup hpend).1
  · intro i hi hf2
    by_cases h1 : 1000 < st.processed.card
    · simp [AF.cleanup_processed_tracks, h1] at hi
    · by_cases h2 : 100 < st.failed.card
      · simp [AF.cleanup_processed_tracks, h2] at hf2
      · simp [AF.cleanup_processed_tracks, h1, h2] at hi hf2
        exact hdisj i hi hf2
  · have hfail_mem : ∀ u ∈ current.filter (fun u => decide (u.id ∈ st.failed)),
        u.id ∈ st.failed :=
      fun u hu => of_decide_eq_true (List.mem_filter.mp hu).2
    have hnodupR := nodup_filter_map_id (fun u => decide (u.id ∈ st.failed)) current hnd2
    have hdisj1 : RegDisjoint ⟨st.processed,
        (current.filter (fun u => decide (u.id ∈ st.failed))).foldl
          (fun f u => f.erase u.id) st.failed⟩ := by
      intro i hi hf2
      have hm := (mem_foldl_erase _ st.failed i).mp hf2
      exact hdisj i hi hm.1
    have hpend1 : ∀ u ∈ current.filter (fun u => decide (u.id ∈ st.failed)),
        u.id ∉ (⟨st.processed,
          (current.filter (fun u => decide (u.id ∈ st.failed))).foldl
            (fun f u => f.erase u.id) st.failed⟩ : RegState).processed ∧
        u.id ∉ (⟨st.processed,
          (current.filter (fun u => decide (u.id ∈ st.failed))).foldl
            (fun f u => f.erase u.id) st.failed⟩ : RegState).failed := by
      intro u hu
      have hufail := hfail_mem u hu
      constructor
      · exact fun hmem => hdisj u.id hmem hufail
      · intro hmem
        have hm := (mem_foldl_erase _ st.failed u.id).mp hmem
        exact hm.2 (List.mem_map.mpr ⟨u, hu, rfl⟩)
    obtain ⟨hd, hmem, _⟩ := process_list_spec dl rm
      (current.filter (fun u => decide (u.id ∈ st.failed)))
      ⟨st.processed, (current.filter (fun u => decide (u.id ∈ st.failed))).foldl
        (fun f u => f.erase u.id) st.failed⟩ hdisj1 hnodupR hpend1
    refine ⟨hd, ?_, ?_⟩
    · intro i hi
      rcases List.mem_map.mp hi with ⟨u, hu, rfl⟩
      exact fun hmem => hdisj u.id hmem (hfail_mem u hu)
    · intro i hi
      rcases List.mem_map.mp hi with ⟨u, hu, rfl⟩
      exact hmem u hu

/-- Claim C5 witness. -/
theorem registry_disjointness_invariant_witness :
    RegDisjoint (⟨∅, ∅⟩ : RegState) ∧
    RegDisjoint (AF.cleanup_processed_tracks ⟨∅, ∅⟩) := by
  have hd : RegDisjoint (⟨∅, ∅⟩ : RegState) :=
    fun i hi => absurd hi (Finset.not_mem_empty i)
  refine ⟨hd, ?_⟩
  exact (registry_disjointness_invariant ⟨∅, ∅⟩ hd ⟨"a", "b", "c", "d"⟩ true true
    (fun _ => true) (fun _ => true) [] [] (by simp) (by simp)
    (Finset.not_mem_empty _) (Finset.not_mem_empty _)).2.2.1

/-- Claim C9: the file chosen by `_find_downloaded_file` does not depend
on the requested title — for any fixed directory snapshot and clock, any
two title arguments yield the same result, since selection uses only the
extension allow/deny lists and modification times. -/
theorem find_downloaded_file_title_independent (t1 t2 : String)
    (files : List APP.FSFile) (now : Int) :
    APP.find_downloaded_file t1 files now = APP.find_downloaded_file t2 files now :=
  rfl

/-- Claim C10: with an uninitialized Spotify client, `sync_playlist`
returns the all-zero statistics, leaves `processed_tracks` untouched and
issues no downloader calls (src/app/spotify_watcher.py, lines 199-201). -/
theorem sync_playlist_uninitialized_zero_stats (dl rm : Track → Bool)
    (processed : Finset String) (tracks : List Track) :
    APP.sync_playlist false dl rm processed tracks = (⟨0, 0, 0⟩, processed, []) :=
  rfl

end MixSync
